import Mathlib

/-!
# StudyBuddy AI — verification of the specification against the code

Shallow embedding of the StudyBuddy homework-helper client:

* the data model (`types.ts`): `Role`, `Message`, `LoadingState`;
* the chat orchestrator (`App.handleSendMessage`, the Clear Chat button);
* the Gemini service glue (`solveHomework`'s result handling,
  `fileToGenerativePart`'s base64 data-URL encoding);
* the markdown-subset renderer (`MarkdownText.formatBold`);
* the image crop pipeline (`centerAspectCrop`, `getCroppedImg`,
  `processFinalImage`).

Asynchronous effects are embedded by passing the outcome of the single
awaited service call as an explicit argument; fresh message ids and
timestamps are likewise passed explicitly.
-/

/-- `Role` from src/types.ts — `USER = 'user'`, `MODEL = 'model'`. -/
inductive Role where
  | user
  | model
deriving DecidableEq

/-- `Message` from src/types.ts.  The optional `isError?: boolean` field is
embedded as a `Bool` that defaults to `false` (absent flag). -/
structure Message where
  id : String
  role : Role
  text : String
  image : Option String := none
  timestamp : Nat
  isError : Bool := false
deriving DecidableEq

/-- `LoadingState` from src/types.ts:
`'idle' | 'uploading' | 'thinking' | 'streaming'`. -/
inductive LoadingState where
  | idle
  | uploading
  | thinking
  | streaming
deriving DecidableEq

/-- The `selectedImage` state value of `App`:
`{ base64: string, mimeType: string, preview: string }`. -/
structure SelectedImage where
  base64 : String
  mimeType : String
  preview : String
deriving DecidableEq

/-- The chat-relevant part of the `App` component state. -/
structure AppState where
  messages : List Message
  inputText : String
  selectedImage : Option SelectedImage
  loadingState : LoadingState
deriving DecidableEq

/-- The outcome of the awaited `solveHomework` call as seen by
`handleSendMessage`: either a response text or a thrown error. -/
inductive AIOutcome where
  | success (responseText : String)
  | failure
deriving DecidableEq

/-- The arguments `handleSendMessage` passes to
`solveHomework(currentText, currentImage?.base64, currentImage?.mimeType, language)`. -/
structure AICall where
  prompt : String
  imageBase64 : Option String
  mimeType : Option String
  language : String
deriving DecidableEq

/-- JavaScript `String.prototype.trim`: drop whitespace from both ends,
embedded on the character list of the string. -/
def jsTrim (l : List Char) : List Char :=
  ((l.dropWhile Char.isWhitespace).reverse.dropWhile Char.isWhitespace).reverse

/-- The fixed apology text of the error-flagged message appended in
`handleSendMessage`'s catch block. -/
def errorText : String := "Sorry, I encountered an error. Please check your connection."

/-- `App.handleSendMessage`.  Returns the state after the whole response
cycle together with the service call that was issued (`none` when the guard
rejected the send).  `uid`/`mid` stand for the two `generateId()` results and
`t1`/`t2` for the two `Date.now()` results. -/
def handleSendMessage (s : AppState) (uid mid : String) (t1 t2 : Nat)
    (language : String) (outcome : AIOutcome) : AppState × Option AICall :=
  if (jsTrim s.inputText.toList = [] ∧ s.selectedImage = none) ∨ s.loadingState ≠ .idle then
    (s, none)
  else
    let currentText := s.inputText
    let currentImage := s.selectedImage
    let newUserMessage : Message :=
      { id := uid, role := .user, text := currentText,
        image := currentImage.map (·.base64), timestamp := t1 }
    let s1 : AppState :=
      { s with messages := s.messages ++ [newUserMessage],
               inputText := "", selectedImage := none,
               loadingState := .thinking }
    let call : AICall :=
      { prompt := currentText, imageBase64 := currentImage.map (·.base64),
        mimeType := currentImage.map (·.mimeType), language := language }
    match outcome with
    | .success responseText =>
        let newModelMessage : Message :=
          { id := mid, role := .model, text := responseText, timestamp := t2 }
        ({ s1 with messages := s1.messages ++ [newModelMessage],
                   loadingState := .idle }, some call)
    | .failure =>
        let errorMessage : Message :=
          { id := mid, role := .model, text := errorText, timestamp := t2,
            isError := true }
        ({ s1 with messages := s1.messages ++ [errorMessage],
                   loadingState := .idle }, some call)

/-- The Clear Chat button: `setMessages(prev => [prev[0]])`.  On the nonempty
lists the app maintains this keeps exactly the first (welcome) message, which
is `List.take 1`. -/
def clearChat (s : AppState) : AppState :=
  { s with messages := s.messages.take 1 }

/-- The fixed fallback text of `solveHomework` when the service response text
is empty or absent. -/
def noSolutionText : String := "I couldn't generate a solution. Please try again."

/-- JavaScript `a || b` on an optional string: `undefined` and `""` are
falsy. -/
def jsOrElse (o : Option String) (d : String) : String :=
  match o with
  | some t => if t = "" then d else t
  | none => d

/-- The result of `solveHomework` on a successful service response, from
src/types.ts: `return response.text || "I couldn't generate a solution. Please try again."`. -/
def solveHomeworkResult (responseText : Option String) : String :=
  jsOrElse responseText noSolutionText

/-- Global single-character replacement, the building block of the three
`.replace(/x/g, "…")` calls in `formatBold` (src MarkdownText). -/
def replaceChar (c : Char) (rep : List Char) : List Char → List Char
  | [] => []
  | x :: xs =>
      if x = c then rep ++ replaceChar c rep xs
      else x :: replaceChar c rep xs

/-- The HTML-escape pass of `formatBold`:
`.replace(/&/g, "&amp;").replace(/</g, "&lt;").replace(/>/g, "&gt;")`,
applied in exactly that order. -/
def escapeHtml (l : List Char) : List Char :=
  replaceChar '>' "&gt;".toList
    (replaceChar '<' "&lt;".toList
      (replaceChar '&' "&amp;".toList l))

/-- The opening tag `formatBold` substitutes for `**`. -/
def boldOpenTag : List Char := "<b class=\"font-semibold text-gray-900\">".toList

/-- The closing bold tag. -/
def boldCloseTag : List Char := "</b>".toList

/-- The opening tag of the inline-code substitution. -/
def codeOpenTag : List Char :=
  "<code class=\"bg-gray-100 px-1 py-0.5 rounded text-rose-600 font-mono text-sm\">".toList

/-- The closing code tag. -/
def codeCloseTag : List Char := "</code>".toList

/-- One left-to-right pass implementing `.replace(/\x2a\x2a(.*?)\x2a\x2a/g, ...)`
on a single line (the renderer splits the content on newlines before calling
`formatBold`, so inputs contain no newline).  `pending = some acc` records the
(reversed) characters read since an unmatched `**` opener; an opener that is
never closed is re-emitted literally, as the regex leaves it unmatched. -/
def boldAux : Option (List Char) → List Char → List Char
  | some acc, [] => '*' :: '*' :: acc.reverse
  | none, [] => []
  | pending, '*' :: '*' :: rest =>
      (match pending with
       | none => boldAux (some []) rest
       | some acc => boldOpenTag ++ acc.reverse ++ boldCloseTag ++ boldAux none rest)
  | some acc, c :: rest => boldAux (some (c :: acc)) rest
  | none, c :: rest => c :: boldAux none rest

/-- The backquote character, U+0060. -/
def backquote : Char := Char.ofNat 96

/-- One left-to-right pass implementing the inline-code replacement
`.replace(/\x60(.*?)\x60/g, ...)` on a single line, in the same style as
`boldAux`. -/
def codeAux : Option (List Char) → List Char → List Char
  | some acc, [] => backquote :: acc.reverse
  | none, [] => []
  | pending, c :: rest =>
      if c = backquote then
        match pending with
        | none => codeAux (some []) rest
        | some acc => codeOpenTag ++ acc.reverse ++ codeCloseTag ++ codeAux none rest
      else
        match pending with
        | some acc => codeAux (some (c :: acc)) rest
        | none => c :: codeAux none rest

/-- `formatBold` from the markdown renderer: escape HTML-special characters,
then rewrite `**…**` to a bold tag, then rewrite inline code spans. -/
def formatBold (text : List Char) : List Char :=
  codeAux none (boldAux none (escapeHtml text))

/-- A crop rectangle `{x, y, width, height}`, with coordinates embedded as
rationals (browser numbers on these code paths stay within exact decimal
arithmetic for the properties proved here). -/
structure CropRect where
  x : ℚ
  y : ℚ
  width : ℚ
  height : ℚ
deriving DecidableEq

/-- Modelled from the spec: `centerAspectCrop` (App) delegates to
`makeAspectCrop({unit: '%', width: 90}, aspect, w, h)` and `centerCrop` from
the external react-image-crop package, whose source is not part of this
repository.  Per spec §4.1 the helper returns "a centered rectangle covering
90% of the shorter applicable dimension, respecting the aspect ratio": the
dimension that at the requested aspect ratio limits the crop gets 90% of its
extent, the other extent follows from the aspect ratio, and the rectangle is
centered in the image.  The result is returned in pixels of the media box. -/
def centerAspectCrop (mediaWidth mediaHeight aspect : ℚ) : CropRect :=
  if mediaWidth / aspect ≤ mediaHeight then
    let w := 9 / 10 * mediaWidth
    let h := w / aspect
    ⟨(mediaWidth - w) / 2, (mediaHeight - h) / 2, w, h⟩
  else
    let h := 9 / 10 * mediaHeight
    let w := h * aspect
    ⟨(mediaWidth - w) / 2, (mediaHeight - h) / 2, w, h⟩

/-- The drawing parameters `getCroppedImg` computes before rasterizing:
the canvas surface size, the source sub-rectangle handed to `drawImage`
(in natural pixels) and the destination extent. -/
structure RasterPlan where
  canvasWidth : ℚ
  canvasHeight : ℚ
  srcX : ℚ
  srcY : ℚ
  srcW : ℚ
  srcH : ℚ
  dstW : ℚ
  dstH : ℚ
deriving DecidableEq

/-- The arithmetic core of `getCroppedImg` (App): given the confirmed crop in
displayed pixels, the image's natural and displayed dimensions and
`window.devicePixelRatio`, compute the canvas size
(`completedCrop.width * scaleX * pixelRatio` by
`completedCrop.height * scaleY * pixelRatio`) and the `drawImage`
source/destination rectangles. -/
def getCroppedImgPlan (completedCrop : CropRect)
    (naturalWidth naturalHeight width height pixelRatio : ℚ) : RasterPlan :=
  let scaleX := naturalWidth / width
  let scaleY := naturalHeight / height
  { canvasWidth := completedCrop.width * scaleX * pixelRatio
    canvasHeight := completedCrop.height * scaleY * pixelRatio
    srcX := completedCrop.x * scaleX
    srcY := completedCrop.y * scaleY
    srcW := completedCrop.width * scaleX
    srcH := completedCrop.height * scaleY
    dstW := completedCrop.width * scaleX
    dstH := completedCrop.height * scaleY }

/-- A `File` value as the crop pipeline builds it: a name, a MIME type and
the raw byte content (bytes as naturals below 256). -/
structure FileModel where
  name : String
  type : String
  content : List Nat
deriving DecidableEq

/-- The result of one invocation of `getCroppedImg`: which file (if any) was
handed to `processFinalImage`, whether the full original image was used, and
whether any error was surfaced (this function reports none; the only
user-visible image error lives in `processFinalImage`'s catch). -/
structure CropFinalize where
  file : Option FileModel
  usedOriginal : Bool
  errorReported : Bool
deriving DecidableEq

/-- The control flow of `getCroppedImg` (App): when the image ref, the
confirmed crop or the source data URL is missing, fall back to the original
image fetched from `cropImageSrc` wrapped as `File("image.jpg", image/jpeg)`;
otherwise rasterize and wrap the canvas JPEG blob as
`File("cropped.jpg", image/jpeg)`.  `cropImageSrc` carries the bytes behind
the data URL, `canvasBytes` the bytes `canvas.toBlob(..., 'image/jpeg')`
produces. -/
def getCroppedImgStep (imgLoaded : Bool) (completedCrop : Option CropRect)
    (cropImageSrc : Option (List Nat)) (canvasBytes : List Nat) : CropFinalize :=
  if imgLoaded = false ∨ completedCrop = none ∨ cropImageSrc = none then
    match cropImageSrc with
    | some originalBytes =>
        { file := some ⟨"image.jpg", "image/jpeg", originalBytes⟩,
          usedOriginal := true, errorReported := false }
    | none =>
        { file := none, usedOriginal := false, errorReported := false }
  else
    { file := some ⟨"cropped.jpg", "image/jpeg", canvasBytes⟩,
      usedOriginal := false, errorReported := false }

/-- Base64 sextet stream of a byte list: each group of three bytes becomes
four six-bit values, with the standard short-group forms for one or two
trailing bytes.  This is the encoding `FileReader.readAsDataURL` applies to
the blob content. -/
def b64encodeSextets : List Nat → List Nat
  | [] => []
  | [a] => [a / 4, a % 4 * 16]
  | [a, b] => [a / 4, a % 4 * 16 + b / 16, b % 16 * 4]
  | a :: b :: c :: rest =>
      a / 4 :: (a % 4 * 16 + b / 16) :: (b % 16 * 4 + c / 64) :: c % 64 ::
        b64encodeSextets rest

/-- Inverse of `b64encodeSextets`: reassemble bytes from groups of four
sextets, with the short-group forms at the end. -/
def b64decodeSextets : List Nat → List Nat
  | [] => []
  | [_] => []
  | [s0, s1] => [s0 * 4 + s1 / 16]
  | [s0, s1, s2] => [s0 * 4 + s1 / 16, s1 % 16 * 16 + s2 / 4]
  | s0 :: s1 :: s2 :: s3 :: rest =>
      (s0 * 4 + s1 / 16) :: (s1 % 16 * 16 + s2 / 4) :: (s2 % 4 * 64 + s3) ::
        b64decodeSextets rest

/-- The standard base64 alphabet. -/
def base64Chars : List Char :=
  ['A', 'B', 'C', 'D', 'E', 'F', 'G', 'H', 'I', 'J', 'K', 'L', 'M',
   'N', 'O', 'P', 'Q', 'R', 'S', 'T', 'U', 'V', 'W', 'X', 'Y', 'Z',
   'a', 'b', 'c', 'd', 'e', 'f', 'g', 'h', 'i', 'j', 'k', 'l', 'm',
   'n', 'o', 'p', 'q', 'r', 's', 't', 'u', 'v', 'w', 'x', 'y', 'z',
   '0', '1', '2', '3', '4', '5', '6', '7', '8', '9', '+', '/']

/-- Character of a sextet value in the base64 alphabet. -/
def sextetToChar (s : Nat) : Char := base64Chars.getD s '='

/-- Sextet value of a base64 alphabet character. -/
def charToSextet (c : Char) : Nat := base64Chars.indexOf c

/-- Base64 padding for a payload of `n` bytes. -/
def b64pad (n : Nat) : List Char :=
  if n % 3 = 1 then ['=', '=']
  else if n % 3 = 2 then ['=']
  else []

/-- Base64 encoding of a byte list, characters plus padding. -/
def b64encode (bytes : List Nat) : List Char :=
  (b64encodeSextets bytes).map sextetToChar ++ b64pad bytes.length

/-- Base64 decoding of a character list: drop padding, map characters back to
sextets, reassemble bytes. -/
def b64decode (chars : List Char) : List Nat :=
  b64decodeSextets ((chars.filter (fun c => decide (c ≠ '='))).map charToSextet)

/-- The characters after the first comma of a list (start of the `[1]`
segment of `split(',')`). -/
def afterFirstComma : List Char → List Char
  | [] => []
  | c :: rest => if c = ',' then rest else afterFirstComma rest

/-- The characters before the next comma (end of a `split(',')` segment). -/
def untilComma : List Char → List Char
  | [] => []
  | c :: rest => if c = ',' then [] else c :: untilComma rest

/-- `split(',')[1]`: the segment between the first and second comma. -/
def splitCommaSecond (l : List Char) : List Char :=
  untilComma (afterFirstComma l)

/-- The data URL `FileReader.readAsDataURL` produces for a file:
`"data:" + mimeType + ";base64," +` the base64 payload of the content. -/
def dataUrlOf (file : FileModel) : List Char :=
  ("data:" ++ file.type ++ ";base64,").toList ++ b64encode file.content

/-- The `inlineData` payload `fileToGenerativePart` resolves with. -/
structure InlineData where
  data : String
  mimeType : String
deriving DecidableEq

/-- `fileToGenerativePart` from src/types.ts: read the file as a data URL,
strip the prefix with `base64String.split(',')[1]`, and pair the payload with
`file.type`. -/
def fileToGenerativePart (file : FileModel) : InlineData :=
  { data := String.mk (splitCommaSecond (dataUrlOf file)),
    mimeType := file.type }

/-- `processFinalImage` (App), success path: encode the file and store it as
the selected image, with an object URL as preview. -/
def processFinalImage (file : FileModel) (previewUrl : String) : SelectedImage :=
  let result := fileToGenerativePart file
  { base64 := result.data, mimeType := result.mimeType, preview := previewUrl }

/-! Further definitions are inserted above this line; theorems follow. -/

/-! ## Claim theorems -/

/-- C2: when `loadingState` is not `'idle'`, `handleSendMessage` is a no-op:
the guard returns early, so the message list, the input text, the selected
image and the loading state are all unchanged and no service call is made. -/
theorem claim_C2 (s : AppState) (uid mid : String) (t1 t2 : Nat)
    (language : String) (outcome : AIOutcome)
    (h : s.loadingState ≠ .idle) :
    handleSendMessage s uid mid t1 t2 language outcome = (s, none) := by
  simp [handleSendMessage, h]

/-- Witness for C2 at a concrete `thinking` state. -/
theorem claim_C2_witness :
    (AppState.mk [] "hello" none .thinking).loadingState ≠ .idle ∧
    handleSendMessage (AppState.mk [] "hello" none .thinking) "u1" "m1" 3 4
      "English" (.success "answer") = (AppState.mk [] "hello" none .thinking, none) :=
  ⟨by decide, claim_C2 (AppState.mk [] "hello" none .thinking) "u1" "m1" 3 4
      "English" (.success "answer") (by decide)⟩

/-- C3: when the guard passes and the service call fails, exactly one
model-role message with the error flag set and the fixed apology text is
appended (after the user message), and the loading state is reset to
`'idle'` by the `finally` block. -/
theorem claim_C3 (s : AppState) (uid mid : String) (t1 t2 : Nat)
    (language : String)
    (h1 : s.loadingState = .idle)
    (h2 : ¬(jsTrim s.inputText.toList = [] ∧ s.selectedImage = none)) :
    (handleSendMessage s uid mid t1 t2 language .failure).1.messages =
      s.messages ++
        [{ id := uid, role := .user, text := s.inputText,
           image := s.selectedImage.map (·.base64), timestamp := t1 },
         { id := mid, role := .model, text := errorText, timestamp := t2,
           isError := true }] ∧
    (handleSendMessage s uid mid t1 t2 language .failure).1.loadingState = .idle ∧
    (((handleSendMessage s uid mid t1 t2 language .failure).1.messages.drop
        s.messages.length).filter
          (fun m => decide (m.role = .model) && m.isError)).length = 1 := by
  have hg : ¬((jsTrim s.inputText.toList = [] ∧ s.selectedImage = none) ∨
      s.loadingState ≠ .idle) := by
    rw [not_or]
    exact ⟨h2, by simp [h1]⟩
  unfold handleSendMessage
  rw [if_neg hg]
  refine ⟨by simp, by simp, ?_⟩
  simp [List.append_assoc, List.drop_left, List.filter]

/-- Witness for C3 at a concrete idle state with nonempty input. -/
theorem claim_C3_witness :
    (AppState.mk [] "help me" none .idle).loadingState = .idle ∧
    ¬(jsTrim (AppState.mk [] "help me" none .idle).inputText.toList = [] ∧
      (AppState.mk [] "help me" none .idle).selectedImage = none) ∧
    ((handleSendMessage (AppState.mk [] "help me" none .idle) "u1" "m1" 3 4
        "English" .failure).1.messages =
      (AppState.mk [] "help me" none .idle).messages ++
        [{ id := "u1", role := .user, text := "help me",
           image := none, timestamp := 3 },
         { id := "m1", role := .model, text := errorText, timestamp := 4,
           isError := true }] ∧
    (handleSendMessage (AppState.mk [] "help me" none .idle) "u1" "m1" 3 4
        "English" .failure).1.loadingState = .idle ∧
    (((handleSendMessage (AppState.mk [] "help me" none .idle) "u1" "m1" 3 4
        "English" .failure).1.messages.drop
        (AppState.mk [] "help me" none .idle).messages.length).filter
          (fun m => decide (m.role = .model) && m.isError)).length = 1) :=
  ⟨rfl, by decide,
    claim_C3 (AppState.mk [] "help me" none .idle) "u1" "m1" 3 4 "English"
      rfl (by decide)⟩

/-- C10: when the service responds successfully with absent or empty text,
`solveHomework` returns the fixed fallback string, and the success path of
`handleSendMessage` appends it as an ordinary (non-error-flagged) model
message. -/
theorem claim_C10 (s : AppState) (uid mid : String) (t1 t2 : Nat)
    (language : String) (responseText : Option String)
    (h1 : s.loadingState = .idle)
    (h2 : ¬(jsTrim s.inputText.toList = [] ∧ s.selectedImage = none))
    (h3 : responseText = none ∨ responseText = some "") :
    solveHomeworkResult responseText = noSolutionText ∧
    (handleSendMessage s uid mid t1 t2 language
        (.success (solveHomeworkResult responseText))).1.messages =
      s.messages ++
        [{ id := uid, role := .user, text := s.inputText,
           image := s.selectedImage.map (·.base64), timestamp := t1 },
         { id := mid, role := .model, text := noSolutionText,
           timestamp := t2, isError := false }] := by
  have hres : solveHomeworkResult responseText = noSolutionText := by
    rcases h3 with h | h <;> simp [h, solveHomeworkResult, jsOrElse]
  have hg : ¬((jsTrim s.inputText.toList = [] ∧ s.selectedImage = none) ∨
      s.loadingState ≠ .idle) := by
    rw [not_or]
    exact ⟨h2, by simp [h1]⟩
  refine ⟨hres, ?_⟩
  unfold handleSendMessage
  rw [if_neg hg, hres]
  simp

/-- Witness for C10 at a concrete idle state and an empty service reply. -/
theorem claim_C10_witness :
    (AppState.mk [] "solve 2+2" none .idle).loadingState = .idle ∧
    ¬(jsTrim (AppState.mk [] "solve 2+2" none .idle).inputText.toList = [] ∧
      (AppState.mk [] "solve 2+2" none .idle).selectedImage = none) ∧
    ((some "" : Option String) = none ∨ (some "" : Option String) = some "") ∧
    (solveHomeworkResult (some "") = noSolutionText ∧
    (handleSendMessage (AppState.mk [] "solve 2+2" none .idle) "u1" "m1" 3 4
        "English" (.success (solveHomeworkResult (some "")))).1.messages =
      (AppState.mk [] "solve 2+2" none .idle).messages ++
        [{ id := "u1", role := .user, text := "solve 2+2",
           image := none, timestamp := 3 },
         { id := "m1", role := .model, text := noSolutionText,
           timestamp := 4, isError := false }]) :=
  ⟨rfl, by decide, Or.inr rfl,
    claim_C10 (AppState.mk [] "solve 2+2" none .idle) "u1" "m1" 3 4 "English"
      (some "") rfl (by decide) (Or.inr rfl)⟩

/-- C1 counterexample: the Clear Chat button (`setMessages(prev => [prev[0]])`)
does not merely append — on a two-message history it removes the second
message, so its result is not the old list extended by any tail. -/
theorem claim_C1_counterexample :
    ¬ ∃ tail, (clearChat
        (AppState.mk
          [{ id := "welcome", role := .model, text := "Hi!", timestamp := 0 },
           { id := "u1", role := .user, text := "question", timestamp := 1 }]
          "" none .idle)).messages =
      [{ id := "welcome", role := .model, text := "Hi!", timestamp := 0 },
       { id := "u1", role := .user, text := "question", timestamp := 1 }] ++ tail := by
  rintro ⟨tail, h⟩
  have hlen := congrArg List.length h
  simp [clearChat] at hlen

/-- C1 amended: `handleSendMessage` only ever appends newly created messages
to the end of the list, but the Clear Chat button instead resets the history
to its first (welcome) message; in both cases the retained messages are kept
unchanged (the clear result is the one-element prefix of the old list), and
no existing message is mutated in place. -/
theorem claim_C1_amended (s : AppState) (uid mid : String) (t1 t2 : Nat)
    (language : String) (outcome : AIOutcome) :
    (∃ tail, (handleSendMessage s uid mid t1 t2 language outcome).1.messages =
      s.messages ++ tail) ∧
    (clearChat s).messages = s.messages.take 1 ∧
    (clearChat s).messages <+: s.messages := by
  refine ⟨?_, rfl, List.take_prefix 1 s.messages⟩
  by_cases hg : (jsTrim s.inputText.toList = [] ∧ s.selectedImage = none) ∨
      s.loadingState ≠ .idle
  · refine ⟨[], ?_⟩
    unfold handleSendMessage
    rw [if_pos hg]
    simp
  · cases outcome with
    | success responseText =>
        refine ⟨[{ id := uid, role := .user, text := s.inputText,
                   image := s.selectedImage.map (·.base64), timestamp := t1 },
                 { id := mid, role := .model, text := responseText,
                   timestamp := t2 }], ?_⟩
        unfold handleSendMessage
        rw [if_neg hg]
        simp
    | failure =>
        refine ⟨[{ id := uid, role := .user, text := s.inputText,
                   image := s.selectedImage.map (·.base64), timestamp := t1 },
                 { id := mid, role := .model, text := errorText,
                   timestamp := t2, isError := true }], ?_⟩
        unfold handleSendMessage
        rw [if_neg hg]
        simp

/-- Characters of `replaceChar c rep l` come from the replacement text or are
characters of `l` other than `c`. -/
theorem mem_of_mem_replaceChar {x c : Char} {rep l : List Char}
    (h : x ∈ replaceChar c rep l) : x ∈ rep ∨ (x ∈ l ∧ x ≠ c) := by
  induction l with
  | nil => simp [replaceChar] at h
  | cons y ys ih =>
      by_cases hy : y = c
      · rw [replaceChar, if_pos hy] at h
        rcases List.mem_append.mp h with h1 | h2
        · exact Or.inl h1
        · rcases ih h2 with h3 | ⟨h4, h5⟩
          · exact Or.inl h3
          · exact Or.inr ⟨List.mem_cons_of_mem y h4, h5⟩
      · rw [replaceChar, if_neg hy] at h
        rcases List.mem_cons.mp h with h1 | h2
        · subst h1
          exact Or.inr ⟨List.mem_cons_self x ys, hy⟩
        · rcases ih h2 with h3 | ⟨h4, h5⟩
          · exact Or.inl h3
          · exact Or.inr ⟨List.mem_cons_of_mem y h4, h5⟩

/-- After the escape pass, no raw left angle bracket remains. -/
theorem escapeHtml_no_lt (l : List Char) : '<' ∉ escapeHtml l := by
  intro h
  rcases mem_of_mem_replaceChar h with h1 | ⟨h2, _⟩
  · exact absurd h1 (by decide)
  · rcases mem_of_mem_replaceChar h2 with h3 | ⟨_, h5⟩
    · exact absurd h3 (by decide)
    · exact h5 rfl

/-- After the escape pass, no raw right angle bracket remains. -/
theorem escapeHtml_no_gt (l : List Char) : '>' ∉ escapeHtml l := by
  intro h
  rcases mem_of_mem_replaceChar h with h1 | ⟨_, h3⟩
  · exact absurd h1 (by decide)
  · exact h3 rfl

/-- C4: the inline formatter escapes the HTML-special characters before
rewriting the bold and code markers — after the escape pass no raw angle
bracket remains from the input, so the only angle brackets in the output are
the ones of the deliberately emitted bold/code tags — and on the spec's
example line the result keeps `b` elements literal while bolding `ok`. -/
theorem claim_C4 :
    (∀ l : List Char, '<' ∉ escapeHtml l ∧ '>' ∉ escapeHtml l) ∧
    formatBold ("<b> **ok** </b>".toList) =
      "&lt;b&gt; <b class=\"font-semibold text-gray-900\">ok</b> &lt;/b&gt;".toList :=
  ⟨fun l => ⟨escapeHtml_no_lt l, escapeHtml_no_gt l⟩, by decide⟩

/-- Sextets produced from bytes are six-bit values. -/
theorem b64encodeSextets_lt (l : List Nat) (h : ∀ b ∈ l, b < 256) :
    ∀ s ∈ b64encodeSextets l, s < 64 := by
  induction l using b64encodeSextets.induct with
  | case1 => simp [b64encodeSextets]
  | case2 a =>
      have ha := h a (by simp)
      simp [b64encodeSextets]
      omega
  | case3 a b =>
      have ha := h a (by simp)
      have hb := h b (by simp)
      simp [b64encodeSextets]
      omega
  | case4 a b c rest ih =>
      have ha := h a (by simp)
      have hb := h b (by simp)
      have hc := h c (by simp)
      have ih2 := ih (fun x hx => h x (by simp [hx]))
      intro s hs
      simp [b64encodeSextets] at hs
      rcases hs with h1 | h1 | h1 | h1 | h1
      · omega
      · omega
      · omega
      · omega
      · exact ih2 s h1

/-- Sextet-level round trip of the base64 grouping. -/
theorem b64decodeSextets_encodeSextets (l : List Nat) (h : ∀ b ∈ l, b < 256) :
    b64decodeSextets (b64encodeSextets l) = l := by
  induction l using b64encodeSextets.induct with
  | case1 => simp [b64encodeSextets, b64decodeSextets]
  | case2 a =>
      simp [b64encodeSextets, b64decodeSextets]
      omega
  | case3 a b =>
      have hb := h b (by simp)
      simp [b64encodeSextets, b64decodeSextets]
      omega
  | case4 a b c rest ih =>
      have hb := h b (by simp)
      have hc := h c (by simp)
      have ih2 := ih (fun x hx => h x (by simp [hx]))
      simp [b64encodeSextets, b64decodeSextets, ih2]
      omega

/-- The alphabet map is injective on six-bit values. -/
theorem charToSextet_sextetToChar : ∀ s, s < 64 → charToSextet (sextetToChar s) = s := by
  decide

/-- No alphabet character is the padding character. -/
theorem sextetToChar_ne_pad : ∀ s, s < 64 → sextetToChar s ≠ '=' := by
  decide

/-- Base64 round trip: decoding an encoded byte list returns the bytes. -/
theorem b64_roundtrip (bytes : List Nat) (h : ∀ b ∈ bytes, b < 256) :
    b64decode (b64encode bytes) = bytes := by
  have hlt := b64encodeSextets_lt bytes h
  unfold b64decode b64encode
  rw [List.filter_append]
  have hpad : (b64pad bytes.length).filter (fun c => decide (c ≠ '=')) = [] := by
    unfold b64pad
    split
    · rfl
    · split <;> rfl
  have hkeep : ((b64encodeSextets bytes).map sextetToChar).filter
      (fun c => decide (c ≠ '=')) = (b64encodeSextets bytes).map sextetToChar := by
    rw [List.filter_eq_self]
    intro c hc
    rcases List.mem_map.mp hc with ⟨s, hs, rfl⟩
    simpa using sextetToChar_ne_pad s (hlt s hs)
  rw [hpad, hkeep, List.append_nil, List.map_map]
  have hmap : (b64encodeSextets bytes).map (charToSextet ∘ sextetToChar) =
      (b64encodeSextets bytes).map id := by
    apply List.map_congr_left
    intro s hs
    exact charToSextet_sextetToChar s (hlt s hs)
  rw [hmap, List.map_id]
  exact b64decodeSextets_encodeSextets bytes h

/-- No alphabet character is a comma. -/
theorem sextetToChar_ne_comma : ∀ s, s < 64 → sextetToChar s ≠ ',' := by
  decide

/-- A base64 payload contains no comma, so `split(',')` keeps it whole. -/
theorem comma_not_mem_b64encode (bytes : List Nat) (h : ∀ b ∈ bytes, b < 256) :
    ',' ∉ b64encode bytes := by
  have hlt := b64encodeSextets_lt bytes h
  intro hmem
  unfold b64encode at hmem
  rcases List.mem_append.mp hmem with h1 | h1
  · rcases List.mem_map.mp h1 with ⟨s, hs, hc⟩
    exact sextetToChar_ne_comma s (hlt s hs) hc
  · unfold b64pad at h1
    split at h1
    · simp at h1
    · split at h1
      · simp at h1
      · simp at h1

/-- Skipping to the first comma ignores a comma-free prefix. -/
theorem afterFirstComma_append {l1 l2 : List Char} (h : ',' ∉ l1) :
    afterFirstComma (l1 ++ l2) = afterFirstComma l2 := by
  induction l1 with
  | nil => rfl
  | cons c cs ih =>
      have hc : c ≠ ',' := fun hh => h (hh ▸ List.mem_cons_self c cs)
      rw [List.cons_append, afterFirstComma, if_neg hc]
      exact ih (fun hh => h (List.mem_cons_of_mem c hh))

/-- A comma-free list is its own `split(',')` segment. -/
theorem untilComma_eq_self {l : List Char} (h : ',' ∉ l) : untilComma l = l := by
  induction l with
  | nil => rfl
  | cons c cs ih =>
      have hc : c ≠ ',' := fun hh => h (hh ▸ List.mem_cons_self c cs)
      rw [untilComma, if_neg hc, ih (fun hh => h (List.mem_cons_of_mem c hh))]

/-- C8: base64-decoding the `data` field produced by `fileToGenerativePart`
yields exactly the original blob bytes, and the `mimeType` field equals the
blob's MIME type.  (MIME type names contain no comma, which the data-URL
splitting relies on.) -/
theorem claim_C8 (file : FileModel)
    (h1 : ∀ b ∈ file.content, b < 256)
    (h2 : ',' ∉ file.type.toList) :
    b64decode ((fileToGenerativePart file).data).toList = file.content ∧
    (fileToGenerativePart file).mimeType = file.type := by
  refine ⟨?_, rfl⟩
  have hsplit : splitCommaSecond (dataUrlOf file) = b64encode file.content := by
    unfold splitCommaSecond dataUrlOf
    have hdecomp : ("data:" ++ file.type ++ ";base64,").toList ++ b64encode file.content =
        "data:".toList ++ (file.type.toList ++ (";base64".toList ++
          (',' :: b64encode file.content))) := by
      simp [String.toList, String.data_append]
    rw [hdecomp,
      afterFirstComma_append (by decide),
      afterFirstComma_append h2,
      afterFirstComma_append (by decide),
      afterFirstComma, if_pos rfl,
      untilComma_eq_self (comma_not_mem_b64encode file.content h1)]
  show b64decode (String.mk (splitCommaSecond (dataUrlOf file))).toList = file.content
  rw [hsplit]
  exact b64_roundtrip file.content h1

/-- Witness for C8 at a concrete three-byte PNG blob. -/
theorem claim_C8_witness :
    (∀ b ∈ (FileModel.mk "photo.png" "image/png" [0, 1, 255]).content, b < 256) ∧
    ',' ∉ (FileModel.mk "photo.png" "image/png" [0, 1, 255]).type.toList ∧
    (b64decode ((fileToGenerativePart
        (FileModel.mk "photo.png" "image/png" [0, 1, 255])).data).toList =
      (FileModel.mk "photo.png" "image/png" [0, 1, 255]).content ∧
    (fileToGenerativePart (FileModel.mk "photo.png" "image/png" [0, 1, 255])).mimeType =
      (FileModel.mk "photo.png" "image/png" [0, 1, 255]).type) :=
  ⟨by decide, by decide,
    claim_C8 (FileModel.mk "photo.png" "image/png" [0, 1, 255]) (by decide) (by decide)⟩

/-- C5: for positive image dimensions and a positive aspect ratio, the Crop
Geometry Helper returns a centered rectangle, fully contained in
`[0, width] × [0, height]`, that covers 90% of the shorter applicable
dimension (the dimension that limits the crop at the requested aspect
ratio). -/
theorem claim_C5 (w h aspect : ℚ) (hw : 0 < w) (hh : 0 < h) (ha : 0 < aspect) :
    0 ≤ (centerAspectCrop w h aspect).x ∧
    0 ≤ (centerAspectCrop w h aspect).y ∧
    (centerAspectCrop w h aspect).x + (centerAspectCrop w h aspect).width ≤ w ∧
    (centerAspectCrop w h aspect).y + (centerAspectCrop w h aspect).height ≤ h ∧
    (centerAspectCrop w h aspect).x = (w - (centerAspectCrop w h aspect).width) / 2 ∧
    (centerAspectCrop w h aspect).y = (h - (centerAspectCrop w h aspect).height) / 2 ∧
    ((centerAspectCrop w h aspect).width = 9 / 10 * w ∨
     (centerAspectCrop w h aspect).height = 9 / 10 * h) := by
  unfold centerAspectCrop
  split
  case isTrue hc =>
    have hq : (0 : ℚ) ≤ w / aspect := div_nonneg hw.le ha.le
    have heq : (9 / 10 * w) / aspect = 9 / 10 * (w / aspect) := by ring
    simp only [heq]
    refine ⟨by linarith, by linarith, by linarith, by linarith, trivial, trivial,
      Or.inl trivial⟩
  case isFalse hc =>
    have hlt : h * aspect < w := (lt_div_iff₀ ha).mp (lt_of_not_le hc)
    have hnn : (0 : ℚ) ≤ h * aspect := mul_nonneg hh.le ha.le
    have heq : 9 / 10 * h * aspect = 9 / 10 * (h * aspect) := by ring
    simp only [heq]
    refine ⟨by linarith, by linarith, by linarith, by linarith, trivial, trivial,
      Or.inr trivial⟩

/-- Witness for C5 at a 1600×900 image with a 16:9 aspect ratio. -/
theorem claim_C5_witness :
    (0 : ℚ) < 1600 ∧ (0 : ℚ) < 900 ∧ (0 : ℚ) < 16 / 9 ∧
    (0 ≤ (centerAspectCrop 1600 900 (16 / 9)).x ∧
    0 ≤ (centerAspectCrop 1600 900 (16 / 9)).y ∧
    (centerAspectCrop 1600 900 (16 / 9)).x +
      (centerAspectCrop 1600 900 (16 / 9)).width ≤ 1600 ∧
    (centerAspectCrop 1600 900 (16 / 9)).y +
      (centerAspectCrop 1600 900 (16 / 9)).height ≤ 900 ∧
    (centerAspectCrop 1600 900 (16 / 9)).x =
      (1600 - (centerAspectCrop 1600 900 (16 / 9)).width) / 2 ∧
    (centerAspectCrop 1600 900 (16 / 9)).y =
      (900 - (centerAspectCrop 1600 900 (16 / 9)).height) / 2 ∧
    ((centerAspectCrop 1600 900 (16 / 9)).width = 9 / 10 * 1600 ∨
     (centerAspectCrop 1600 900 (16 / 9)).height = 9 / 10 * 900)) :=
  ⟨by norm_num, by norm_num, by norm_num,
    claim_C5 1600 900 (16 / 9) (by norm_num) (by norm_num) (by norm_num)⟩

/-- C6: the rasterizer's output surface is `cropWidth × scaleX × pixelRatio`
by `cropHeight × scaleY × pixelRatio` pixels, which is exactly the painted
source sub-rectangle scaled by the device pixel density (no information loss);
the spec's example crop (100,100,400,300) with scaleX = scaleY = 2 at density 1
yields an 800×600 surface. -/
theorem claim_C6 :
    (∀ (crop : CropRect) (nW nH w h ratio : ℚ),
      (getCroppedImgPlan crop nW nH w h ratio).canvasWidth =
        crop.width * (nW / w) * ratio ∧
      (getCroppedImgPlan crop nW nH w h ratio).canvasHeight =
        crop.height * (nH / h) * ratio ∧
      (getCroppedImgPlan crop nW nH w h ratio).canvasWidth =
        ratio * (getCroppedImgPlan crop nW nH w h ratio).srcW ∧
      (getCroppedImgPlan crop nW nH w h ratio).canvasHeight =
        ratio * (getCroppedImgPlan crop nW nH w h ratio).srcH) ∧
    (getCroppedImgPlan ⟨100, 100, 400, 300⟩ 1200 800 600 400 1).canvasWidth = 800 ∧
    (getCroppedImgPlan ⟨100, 100, 400, 300⟩ 1200 800 600 400 1).canvasHeight = 600 := by
  refine ⟨fun crop nW nH w h ratio => ⟨rfl, rfl, ?_, ?_⟩, ?_, ?_⟩
  · show crop.width * (nW / w) * ratio = ratio * (crop.width * (nW / w))
    ring
  · show crop.height * (nH / h) * ratio = ratio * (crop.height * (nH / h))
    ring
  · norm_num [getCroppedImgPlan]
  · norm_num [getCroppedImgPlan]

/-- C7: when finalize runs with no confirmed crop rectangle but a loaded
source, the full original image bytes are used unmodified as the selected
file and no error is reported — the documented fallback path. -/
theorem claim_C7 (imgLoaded : Bool) (completedCrop : Option CropRect)
    (cropImageSrc : Option (List Nat)) (canvasBytes originalBytes : List Nat)
    (h1 : completedCrop = none) (h2 : cropImageSrc = some originalBytes) :
    getCroppedImgStep imgLoaded completedCrop cropImageSrc canvasBytes =
      { file := some ⟨"image.jpg", "image/jpeg", originalBytes⟩,
        usedOriginal := true, errorReported := false } := by
  subst h1
  subst h2
  simp [getCroppedImgStep]

/-- Witness for C7 on a concrete three-byte original image. -/
theorem claim_C7_witness :
    (none : Option CropRect) = none ∧
    (some [9, 8, 7] : Option (List Nat)) = some [9, 8, 7] ∧
    getCroppedImgStep true none (some [9, 8, 7]) [1, 2] =
      { file := some ⟨"image.jpg", "image/jpeg", [9, 8, 7]⟩,
        usedOriginal := true, errorReported := false } :=
  ⟨rfl, rfl, claim_C7 true none (some [9, 8, 7]) [1, 2] [9, 8, 7] rfl rfl⟩

/-- C9: every file the crop-confirmation flow hands to `processFinalImage`
carries MIME type `image/jpeg` (both the cropped-canvas path and the no-crop
fallback construct jpeg files), so the encoded selected image and the
`mimeType` argument of the subsequent service call are `image/jpeg`. -/
theorem claim_C9 (imgLoaded : Bool) (completedCrop : Option CropRect)
    (cropImageSrc : Option (List Nat)) (canvasBytes : List Nat)
    (file : FileModel) (previewUrl : String)
    (s : AppState) (uid mid : String) (t1 t2 : Nat) (language : String)
    (outcome : AIOutcome)
    (hfile : (getCroppedImgStep imgLoaded completedCrop cropImageSrc canvasBytes).file =
      some file)
    (hsel : s.selectedImage = some (processFinalImage file previewUrl))
    (hidle : s.loadingState = .idle) :
    file.type = "image/jpeg" ∧
    (processFinalImage file previewUrl).mimeType = "image/jpeg" ∧
    (handleSendMessage s uid mid t1 t2 language outcome).2 =
      some { prompt := s.inputText,
             imageBase64 := some (processFinalImage file previewUrl).base64,
             mimeType := some "image/jpeg", language := language } := by
  have htype : file.type = "image/jpeg" := by
    unfold getCroppedImgStep at hfile
    split at hfile
    · cases cropImageSrc with
      | some originalBytes =>
          simp at hfile
          rw [← hfile]
      | none => simp at hfile
    · simp at hfile
      rw [← hfile]
  have hmime : (processFinalImage file previewUrl).mimeType = "image/jpeg" := htype
  have hg : ¬((jsTrim s.inputText.toList = [] ∧ s.selectedImage = none) ∨
      s.loadingState ≠ .idle) := by
    rw [not_or]
    refine ⟨fun hp => ?_, by simp [hidle]⟩
    rw [hsel] at hp
    exact Option.noConfusion hp.2
  refine ⟨htype, hmime, ?_⟩
  unfold handleSendMessage
  rw [if_neg hg]
  cases outcome <;> simp [hsel, ← hmime]

/-- Witness for C9 on the cropped-canvas path with concrete bytes. -/
theorem claim_C9_witness :
    (getCroppedImgStep true (some ⟨0, 0, 10, 10⟩) (some [1, 2]) [3, 4]).file =
      some (FileModel.mk "cropped.jpg" "image/jpeg" [3, 4]) ∧
    (AppState.mk [] "" (some (processFinalImage
        (FileModel.mk "cropped.jpg" "image/jpeg" [3, 4]) "blob:1")) .idle).selectedImage =
      some (processFinalImage (FileModel.mk "cropped.jpg" "image/jpeg" [3, 4]) "blob:1") ∧
    (AppState.mk [] "" (some (processFinalImage
        (FileModel.mk "cropped.jpg" "image/jpeg" [3, 4]) "blob:1")) .idle).loadingState =
      .idle ∧
    ((FileModel.mk "cropped.jpg" "image/jpeg" [3, 4]).type = "image/jpeg" ∧
    (processFinalImage (FileModel.mk "cropped.jpg" "image/jpeg" [3, 4]) "blob:1").mimeType =
      "image/jpeg" ∧
    (handleSendMessage (AppState.mk [] "" (some (processFinalImage
        (FileModel.mk "cropped.jpg" "image/jpeg" [3, 4]) "blob:1")) .idle)
        "u1" "m1" 3 4 "English" (.success "ans")).2 =
      some { prompt := "",
             imageBase64 := some (processFinalImage
               (FileModel.mk "cropped.jpg" "image/jpeg" [3, 4]) "blob:1").base64,
             mimeType := some "image/jpeg", language := "English" }) :=
  ⟨by decide, rfl, rfl,
    claim_C9 true (some ⟨0, 0, 10, 10⟩) (some [1, 2]) [3, 4]
      (FileModel.mk "cropped.jpg" "image/jpeg" [3, 4]) "blob:1"
      (AppState.mk [] "" (some (processFinalImage
        (FileModel.mk "cropped.jpg" "image/jpeg" [3, 4]) "blob:1")) .idle)
      "u1" "m1" 3 4 "English" (.success "ans") (by decide) rfl rfl⟩
